import Mathlib

/-!
Verification of the data-ingestion dispatcher (`src/ingest_data.py`).

The embedding models:
- `os.path.splitext(p)[1]` as `extOf` (POSIX separator `/`; the extension
  starts at the last dot of the basename, except that a run of leading dots
  of the basename never begins an extension);
- `str.endswith` as `strEndsWith`;
- the factory table `DataIngestorFactory.INGESTORS` and the archive table
  `ZipDataIngestor.SUPPORTED_FORMATS` as association lists;
- `DataIngestorFactory.get_data_ingestor` as `get_data_ingestor`;
- `ZipDataIngestor.ingest` as `zipIngest`.  The archive's contents are given
  by a `ZipEnv`: `entries` is the list of member paths the zip would extract
  (`none` models a corrupt/unreadable archive, i.e. `extractall` raising), and
  `parse k path` is the outcome of `CSVDataIngestor`/`JSONDataIngestor`/
  `ParquetDataIngestor` reading `path` (`none` models the read raising).
  `os.listdir("extracted_data")` is modelled by `listdirModel`: the distinct
  top-level components of the extracted member paths, in first-appearance
  order.  The second component of `zipIngest`'s result records the state of
  the `extracted_data` workspace directory after the call.

Python-faithful details that matter below:
- `if not file_name` and `file_name if file_name else ...` test *truthiness*,
  so the empty string behaves like `None` (`truthy`);
- the two `FileNotFoundError` raise sites have different messages: the
  zero-candidates one ("No supported file format found in the extracted
  data.") names no files, the missing-selection one appends
  "Available files: {supported_files}"; they are modelled as
  `IngestResult.notFound none` and `IngestResult.notFound (some candidates)`;
- no cleanup is performed after a successful extraction: on the success path
  and on a format-reader failure the workspace stays on disk
  (`Workspace.retained`).
-/

/-- The loader classes: `CSVDataIngestor`, `JSONDataIngestor`,
`ParquetDataIngestor`, `ZipDataIngestor`. -/
inductive IngestorKind
  | csv
  | json
  | parquet
  | zip
deriving DecidableEq, Repr

/-- Model of `os.path.splitext(p)[1]` on a character list (POSIX rules):
take the basename (after the last `/`); the extension starts at its last
dot, unless every character of the basename before that dot is itself a
dot (leading dots never open an extension). -/
def extOfChars (p : List Char) : List Char :=
  let base := (p.reverse.takeWhile (fun c => c != '/')).reverse
  match base.reverse.span (fun c => c != '.') with
  | (tail, rest) =>
    match rest with
    | [] => []
    | _ :: beforeDot =>
      if beforeDot.any (fun c => c != '.') then '.' :: tail.reverse else []

/-- `os.path.splitext(p)[1]` on strings. -/
def extOf (p : String) : String :=
  String.mk (extOfChars p.data)

/-- `s.endswith(suffix)` from Python. -/
def strEndsWith (s suffix : String) : Bool :=
  suffix.data.isSuffixOf s.data

/-- `ZipDataIngestor.SUPPORTED_FORMATS`: the archive loader's
extension-to-loader dictionary. -/
def SUPPORTED_FORMATS : List (String × IngestorKind) :=
  [(".csv", .csv), (".json", .json), (".parquet", .parquet)]

/-- `DataIngestorFactory.INGESTORS`: the factory's extension-to-loader
dictionary. -/
def INGESTORS : List (String × IngestorKind) :=
  [(".csv", .csv), (".json", .json), (".parquet", .parquet), (".zip", .zip)]

/-- Result of `DataIngestorFactory.get_data_ingestor`: a loader instance, or
the `ValueError` ("No ingestor available for file extension: ...") naming the
extension. -/
inductive FactoryResult
  | ingestor (k : IngestorKind)
  | unsupported (ext : String)
deriving DecidableEq, Repr

/-- `DataIngestorFactory.get_data_ingestor`: split the extension, look it up
in `INGESTORS`, raise `ValueError` naming the extension when absent. -/
def get_data_ingestor (file_path : String) : FactoryResult :=
  let file_extension := extOf file_path
  match INGESTORS.lookup file_extension with
  | some k => .ingestor k
  | none => .unsupported file_extension

/-- DataFrames are opaque to this core; a token stands for one. -/
def DataFrame : Type := Nat

/-- Outcome of `ZipDataIngestor.ingest`.  `notFound none` is the
`FileNotFoundError` whose message names no files ("No supported file format
found in the extracted data."); `notFound (some cs)` is the one whose message
ends with "Available files: cs".  `ambiguous cs` is the `ValueError` listing
the candidate files.  `invalidInput` is the `ValueError` "The provided file is
not a .zip file.".  `extractionFailed` is a re-raised `extractall` exception,
`parseFailed` a re-raised reader exception, and `keyError` the (unreachable)
`SUPPORTED_FORMATS[ext]` miss. -/
inductive IngestResult
  | ok (df : Nat)
  | invalidInput
  | extractionFailed
  | notFound (candidates : Option (List String))
  | ambiguous (candidates : List String)
  | parseFailed
  | keyError
deriving DecidableEq, Repr

/-- State of the `extracted_data` directory after a `ZipDataIngestor.ingest`
call: never created, left behind by a failed `extractall`, removed by
`shutil.rmtree`, or retained on disk holding the extracted members. -/
inductive Workspace
  | neverCreated
  | aborted
  | removed
  | retained (files : List String)
deriving DecidableEq, Repr

/-- The archive and filesystem behavior a `ZipDataIngestor.ingest` call
observes: the member paths extraction would produce (`none`: `extractall`
raises), and each format reader's outcome on a given path (`none`: the read
raises). -/
structure ZipEnv where
  entries : Option (List String)
  parse : IngestorKind → String → Option Nat

/-- Python truthiness of the `file_name: str = None` argument: `None` and
`""` are falsy. -/
def truthy : Option String → Bool
  | none => false
  | some s => s != ""

/-- The first path component of an extracted member path: extracting
`sub/a.csv` makes `os.listdir` of the workspace show only `sub`. -/
def topLevelName (entry : String) : String :=
  String.mk (entry.data.takeWhile (fun c => c != '/'))

/-- Model of `os.listdir("extracted_data")` after extracting `entries`: the
distinct top-level components, in first-appearance order. -/
def listdirModel (entries : List String) : List String :=
  entries.foldl
    (fun acc e =>
      if topLevelName e ∈ acc then acc else acc ++ [topLevelName e])
    []

/-- `os.path.splitext(f)[1] in self.SUPPORTED_FORMATS`: membership test on
the dictionary's keys. -/
def isSupportedName (f : String) : Bool :=
  (SUPPORTED_FORMATS.lookup (extOf f)).isSome

/-- `supported_files`: the extracted top-level names whose extension is a
`SUPPORTED_FORMATS` key. -/
def supportedOf (entries : List String) : List String :=
  (listdirModel entries).filter isSupportedName

/-- `selected_file = file_name if file_name else supported_files[0]`. -/
def selectedFileOf (entries : List String) (file_name : Option String) : String :=
  if truthy file_name then file_name.getD "" else (supportedOf entries).headI

/-- `self.SUPPORTED_FORMATS[selected_ext]()` followed by
`ingestor_class.ingest(os.path.join(extraction_path, selected_file))`:
look the extension up, run the reader, wrap its outcome. -/
def applyFormat (env : ZipEnv) (ext path : String) : IngestResult :=
  match SUPPORTED_FORMATS.lookup ext with
  | some k =>
    match env.parse k path with
    | some df => .ok df
    | none => .parseFailed
  | none => .keyError

/-- `ZipDataIngestor.ingest(file_path, file_name)`.  Mirrors the source line
by line: reject non-`.zip` paths before touching the filesystem; extract (a
raising `extractall` propagates, workspace in unknown partial state); filter
`os.listdir` to supported names; zero candidates → remove workspace, raise
the no-supported-format `FileNotFoundError` (no file list in its message);
multiple candidates and falsy `file_name` → remove workspace, raise the
`ValueError` listing the candidates; a selected file not among the candidates
→ remove workspace, raise the `FileNotFoundError` listing the candidates;
otherwise run the matching reader on `extracted_data/<selected>` and return
its outcome, leaving the workspace on disk in every one of these last cases. -/
def zipIngest (env : ZipEnv) (file_path : String) (file_name : Option String) :
    IngestResult × Workspace :=
  if strEndsWith file_path ".zip" = true then
    match env.entries with
    | none => (.extractionFailed, .aborted)
    | some entries =>
      if supportedOf entries = [] then
        (.notFound none, .removed)
      else if 1 < (supportedOf entries).length ∧ truthy file_name = false then
        (.ambiguous (supportedOf entries), .removed)
      else if selectedFileOf entries file_name ∉ supportedOf entries then
        (.notFound (some (supportedOf entries)), .removed)
      else
        (applyFormat env (extOf (selectedFileOf entries file_name))
          ("extracted_data/" ++ selectedFileOf entries file_name),
         Workspace.retained entries)
  else (.invalidInput, .neverCreated)

/-- ASCII lowercasing of one character (used only to state what an
extension "differing only in case" means). -/
def lowerChar (c : Char) : Char :=
  if 'A' ≤ c ∧ c ≤ 'Z' then Char.ofNat (c.toNat + 32) else c

/-- ASCII lowercasing of a string (used only to state what an extension
"differing only in case" means). -/
def lowerStr (s : String) : String :=
  String.mk (s.data.map lowerChar)

/-- Whether an `ingest` error's message lists the candidate files (the
"Available files: ..." suffix of the missing-selection `FileNotFoundError`,
or the candidate list of the multiple-files `ValueError`). -/
def carriesCandidateList : IngestResult → Bool
  | .notFound (some _) => true
  | .ambiguous _ => true
  | _ => false

/-- Whether an `ingest` outcome is one of the two `FileNotFoundError`s. -/
def isNotFoundResult : IngestResult → Bool
  | .notFound _ => true
  | _ => false

/-- Concrete archive environments used by the witness theorems below. -/
def envSoloCSV : ZipEnv :=
  ⟨some ["a.csv"], fun _ _ => some 7⟩

def envPair : ZipEnv :=
  ⟨some ["a.csv", "b.json"],
   fun _ path => if path = "extracted_data/b.json" then some 42 else none⟩

def envTxtOnly : ZipEnv :=
  ⟨some ["a.txt"], fun _ _ => some 7⟩

def envNested : ZipEnv :=
  ⟨some ["sub/a.csv"], fun _ _ => none⟩

def envDirNamedCsv : ZipEnv :=
  ⟨some ["data.csv/a.json"], fun _ _ => none⟩

theorem isSupportedName_empty_false : isSupportedName "" = false := by decide

theorem mem_supportedOf_ne_empty {entries : List String} {s : String}
    (h : s ∈ supportedOf entries) : s ≠ "" := by
  intro he
  have h2 := (List.mem_filter.mp h).2
  rw [he, isSupportedName_empty_false] at h2
  exact Bool.false_ne_true h2

theorem mem_supportedOf_isSupported {entries : List String} {s : String}
    (h : s ∈ supportedOf entries) : isSupportedName s = true :=
  (List.mem_filter.mp h).2

/-- Any extension accepted by the archive loader's dictionary is one of its
three literal keys. -/
theorem lookup_supported_mem {e : String}
    (h : (SUPPORTED_FORMATS.lookup e).isSome = true) :
    e ∈ [".csv", ".json", ".parquet"] := by
  by_cases h1 : e = ".csv"
  · simp [h1]
  by_cases h2 : e = ".json"
  · simp [h2]
  by_cases h3 : e = ".parquet"
  · simp [h3]
  simp [SUPPORTED_FORMATS, List.lookup, beq_eq_false_iff_ne.mpr h1,
    beq_eq_false_iff_ne.mpr h2, beq_eq_false_iff_ne.mpr h3] at h

theorem topLevelName_no_slash (e : String) :
    ('/' : Char) ∉ (topLevelName e).data := by
  intro h
  have hp := List.mem_takeWhile_imp (p := fun c => c != '/') h
  simp at hp

theorem listdirModel_no_slash {entries : List String} {t : String}
    (h : t ∈ listdirModel entries) : ('/' : Char) ∉ t.data := by
  suffices haux : ∀ (l acc : List String),
      (∀ u ∈ acc, ('/' : Char) ∉ u.data) →
      ∀ u ∈ List.foldl
        (fun acc e =>
          if topLevelName e ∈ acc then acc else acc ++ [topLevelName e])
        acc l, ('/' : Char) ∉ u.data by
    exact haux entries [] (by simp) t h
  intro l
  induction l with
  | nil => intro acc hacc u hu; exact hacc u hu
  | cons e rest ih =>
    intro acc hacc u hu
    refine ih _ ?_ u hu
    intro v hv
    dsimp only at hv
    by_cases hc : topLevelName e ∈ acc
    · rw [if_pos hc] at hv
      exact hacc v hv
    · rw [if_neg hc] at hv
      rcases List.mem_append.mp hv with hv | hv
      · exact hacc v hv
      · rcases List.mem_singleton.mp hv with rfl
        exact topLevelName_no_slash e

theorem mem_supportedOf_no_slash {entries : List String} {s : String}
    (h : s ∈ supportedOf entries) : ('/' : Char) ∉ s.data :=
  listdirModel_no_slash (List.mem_filter.mp h).1

/-- Shared path lemma: whenever the selection resolves (an explicit
`file_name` that is among the candidates, or no `file_name` and a single
candidate), `ingest` runs the reader matching the resolved entry's extension
on `extracted_data/<resolved>` and leaves the workspace on disk. -/
theorem zipIngest_resolved (env : ZipEnv) (p : String) (entries : List String)
    (sel : Option String) (resolved : String)
    (hz : strEndsWith p ".zip" = true)
    (he : env.entries = some entries)
    (hres : (∃ s, sel = some s ∧ s ∈ supportedOf entries ∧ resolved = s)
          ∨ (sel = none ∧ supportedOf entries = [resolved])) :
    zipIngest env p sel =
      (applyFormat env (extOf resolved) ("extracted_data/" ++ resolved),
        Workspace.retained entries) := by
  have hmem : resolved ∈ supportedOf entries := by
    rcases hres with ⟨s, _, hs, rfl⟩ | ⟨_, heq⟩
    · exact hs
    · rw [heq]; exact List.mem_singleton_self resolved
  have hne : supportedOf entries ≠ [] := by
    intro h0; rw [h0] at hmem; exact List.not_mem_nil resolved hmem
  have hselfile : selectedFileOf entries sel = resolved := by
    rcases hres with ⟨s, rfl, hs, rfl⟩ | ⟨rfl, heq⟩
    · have hs0 : resolved ≠ "" := mem_supportedOf_ne_empty hs
      simp [selectedFileOf, truthy, hs0]
    · simp [selectedFileOf, truthy, heq]
  have hamb : ¬ (1 < (supportedOf entries).length ∧ truthy sel = false) := by
    rcases hres with ⟨s, rfl, hs, rfl⟩ | ⟨rfl, heq⟩
    · have hs0 : resolved ≠ "" := mem_supportedOf_ne_empty hs
      intro hcon
      rw [show truthy (some resolved) = true by simp [truthy, hs0]] at hcon
      exact Bool.false_ne_true hcon.2.symm
    · intro hcon
      rw [heq] at hcon
      simp at hcon
  unfold zipIngest
  rw [if_pos hz, he]
  dsimp only
  rw [if_neg hne, if_neg hamb, hselfile, if_neg (not_not_intro hmem)]

/-- Shared path lemma: with no supported candidate at all, `ingest` removes
the workspace and raises the `FileNotFoundError` whose message names no
files, whatever `file_name` was passed. -/
theorem zipIngest_noSupported (env : ZipEnv) (p : String) (entries : List String)
    (sel : Option String)
    (hz : strEndsWith p ".zip" = true)
    (he : env.entries = some entries)
    (h0 : supportedOf entries = []) :
    zipIngest env p sel = (.notFound none, .removed) := by
  unfold zipIngest
  rw [if_pos hz, he]
  dsimp only
  rw [if_pos h0]

/-- C1 counterexample: the path `".csv"` ends in the supported extension
`.csv` (Python `str.endswith`), yet `get_data_ingestor` does not return the
CSV loader: `os.path.splitext(".csv")[1]` is `""` (a leading dot of the
basename opens no extension), so the factory raises the unsupported-extension
`ValueError` naming `""`. -/
theorem factory_dot_csv_path_rejected :
    strEndsWith ".csv" ".csv" = true
  ∧ get_data_ingestor ".csv" = .unsupported ""
  ∧ get_data_ingestor ".csv" ≠ .ingestor .csv := by decide

/-- C1 (amended): for every path, the factory dispatches on the path's
`os.path.splitext` extension: `.csv`, `.json`, `.parquet` yield the matching
format loader, `.zip` yields the archive loader, and any other extension is
rejected with the unsupported-extension error naming that extension. -/
theorem factory_dispatch_by_splitext (p : String) :
    get_data_ingestor p =
      if extOf p = ".csv" then .ingestor .csv
      else if extOf p = ".json" then .ingestor .json
      else if extOf p = ".parquet" then .ingestor .parquet
      else if extOf p = ".zip" then .ingestor .zip
      else .unsupported (extOf p) := by
  by_cases h1 : extOf p = ".csv"
  · simp [get_data_ingestor, INGESTORS, List.lookup, h1]
  by_cases h2 : extOf p = ".json"
  · simp [get_data_ingestor, INGESTORS, List.lookup, h1, h2,
      beq_eq_false_iff_ne.mpr h1]
  by_cases h3 : extOf p = ".parquet"
  · simp [get_data_ingestor, INGESTORS, List.lookup, h1, h2, h3,
      beq_eq_false_iff_ne.mpr h1, beq_eq_false_iff_ne.mpr h2]
  by_cases h4 : extOf p = ".zip"
  · simp [get_data_ingestor, INGESTORS, List.lookup, h1, h2, h3, h4,
      beq_eq_false_iff_ne.mpr h1, beq_eq_false_iff_ne.mpr h2,
      beq_eq_false_iff_ne.mpr h3]
  · simp [get_data_ingestor, INGESTORS, List.lookup, h1, h2, h3, h4,
      beq_eq_false_iff_ne.mpr h1, beq_eq_false_iff_ne.mpr h2,
      beq_eq_false_iff_ne.mpr h3, beq_eq_false_iff_ne.mpr h4]

/-- C2: when the selection resolves — an explicit `file_name` that is among
the supported candidates, or no `file_name` and a single candidate — the
archive loader runs the format reader matching the resolved entry's
extension on that entry's extracted path `extracted_data/<resolved>` and
returns that reader's outcome, all other entries ignored. -/
theorem zip_resolved_entry_ingested (env : ZipEnv) (p : String)
    (entries : List String) (sel : Option String) (resolved : String)
    (hz : strEndsWith p ".zip" = true)
    (he : env.entries = some entries)
    (hres : (∃ s, sel = some s ∧ s ∈ supportedOf entries ∧ resolved = s)
          ∨ (sel = none ∧ supportedOf entries = [resolved])) :
    zipIngest env p sel =
      (applyFormat env (extOf resolved) ("extracted_data/" ++ resolved),
        Workspace.retained entries) :=
  zipIngest_resolved env p entries sel resolved hz he hres

/-- C2 witness: an archive holding `a.csv` and `b.json` with
`file_name = "b.json"` loads `b.json` through the JSON reader, ignoring
`a.csv`. -/
theorem zip_resolved_entry_ingested_witness :
    zipIngest envPair "t.zip" (some "b.json") =
      (.ok 42, .retained ["a.csv", "b.json"]) := by
  rw [zip_resolved_entry_ingested envPair "t.zip" ["a.csv", "b.json"]
    (some "b.json") "b.json" (by decide) rfl
    (Or.inl ⟨"b.json", rfl, by decide, rfl⟩)]
  decide

/-- C3: more than one supported candidate and `file_name = None`: the
workspace is removed and the `ValueError` listing the candidate names is
raised. -/
theorem zip_multiple_no_name_ambiguous (env : ZipEnv) (p : String)
    (entries : List String)
    (hz : strEndsWith p ".zip" = true)
    (he : env.entries = some entries)
    (hm : 1 < (supportedOf entries).length) :
    zipIngest env p none =
      (.ambiguous (supportedOf entries), .removed) := by
  have hne : supportedOf entries ≠ [] :=
    List.length_pos.mp (Nat.lt_of_le_of_lt (Nat.zero_le 1) hm)
  unfold zipIngest
  rw [if_pos hz, he]
  dsimp only
  rw [if_neg hne, if_pos ⟨hm, rfl⟩]

/-- C3 witness: an archive holding `a.csv` and `b.json` with no `file_name`
fails with the ambiguity error listing both. -/
theorem zip_multiple_no_name_ambiguous_witness :
    zipIngest envPair "t.zip" none =
      (.ambiguous ["a.csv", "b.json"], .removed) := by
  rw [zip_multiple_no_name_ambiguous envPair "t.zip" ["a.csv", "b.json"]
    (by decide) rfl (by decide)]
  decide

/-- C4 counterexample: Python truthiness makes `file_name = ""` behave as if
no name were given.  With one candidate `a.csv`, the provided name `""` is
not among the supported entries, yet `ingest` loads `a.csv` successfully
instead of raising `FileNotFoundError`; and with zero candidates, a provided
absent name yields the `FileNotFoundError` whose message carries no
candidate list. -/
theorem zip_missing_name_claim_fails :
    (some "" ≠ (none : Option String))
  ∧ ("" ∉ supportedOf ["a.csv"])
  ∧ zipIngest envSoloCSV "t.zip" (some "") = (.ok 7, .retained ["a.csv"])
  ∧ ("b.csv" ∉ supportedOf ["a.txt"])
  ∧ zipIngest envTxtOnly "t.zip" (some "b.csv") = (.notFound none, .removed)
  ∧ carriesCandidateList
      (zipIngest envTxtOnly "t.zip" (some "b.csv")).1 = false := by decide

/-- C4 (amended): when a non-empty `file_name` is provided, at least one
supported candidate exists, and the name is not among the candidates, the
workspace is removed and the `FileNotFoundError` listing the candidates is
raised. -/
theorem zip_nonempty_missing_name_notFound (env : ZipEnv) (p : String)
    (entries : List String) (s : String)
    (hz : strEndsWith p ".zip" = true)
    (he : env.entries = some entries)
    (hne : supportedOf entries ≠ [])
    (hs : s ≠ "")
    (hmem : s ∉ supportedOf entries) :
    zipIngest env p (some s) =
      (.notFound (some (supportedOf entries)), .removed) := by
  have ht : truthy (some s) = true := by simp [truthy, hs]
  have hamb : ¬ (1 < (supportedOf entries).length ∧ truthy (some s) = false) := by
    intro hcon
    rw [ht] at hcon
    exact Bool.false_ne_true hcon.2.symm
  have hsel : selectedFileOf entries (some s) = s := by
    simp [selectedFileOf, ht]
  unfold zipIngest
  rw [if_pos hz, he]
  dsimp only
  rw [if_neg hne, if_neg hamb, hsel, if_pos hmem]

/-- C4 witness: naming `b.csv` in an archive holding only `a.csv` fails with
the `FileNotFoundError` listing `a.csv`. -/
theorem zip_nonempty_missing_name_notFound_witness :
    zipIngest envSoloCSV "t.zip" (some "b.csv") =
      (.notFound (some ["a.csv"]), .removed) := by
  rw [zip_nonempty_missing_name_notFound envSoloCSV "t.zip" ["a.csv"] "b.csv"
    (by decide) rfl (by decide) (by decide) (by decide)]
  decide

/-- C5 counterexample: with zero supported candidates (only `a.txt`),
`ingest` removes the workspace and raises `FileNotFoundError`, but that
error's message ("No supported file format found in the extracted data.")
carries no candidate list, contrary to the claim. -/
theorem zip_no_supported_carries_no_list :
    zipIngest envTxtOnly "t.zip" none = (.notFound none, .removed)
  ∧ isNotFoundResult (zipIngest envTxtOnly "t.zip" none).1 = true
  ∧ carriesCandidateList (zipIngest envTxtOnly "t.zip" none).1 = false := by
  decide

/-- C5 (amended): with zero supported candidates the workspace is removed
and the `FileNotFoundError` is raised, whatever `file_name` was passed; this
error carries no candidate list. -/
theorem zip_no_supported_notFound (env : ZipEnv) (p : String)
    (entries : List String) (sel : Option String)
    (hz : strEndsWith p ".zip" = true)
    (he : env.entries = some entries)
    (h0 : supportedOf entries = []) :
    zipIngest env p sel = (.notFound none, .removed) :=
  zipIngest_noSupported env p entries sel hz he h0

/-- C5 witness: an archive holding only `a.txt` fails with the
no-supported-format `FileNotFoundError` and the workspace is removed. -/
theorem zip_no_supported_notFound_witness :
    zipIngest envTxtOnly "nab.zip" none = (.notFound none, .removed) :=
  zip_no_supported_notFound envTxtOnly "nab.zip" ["a.txt"] none
    (by decide) rfl (by decide)

/-- C6: a path not ending in `.zip` is rejected with the `ValueError`
before any extraction: the workspace directory is never created and no
filesystem effect occurs. -/
theorem zip_non_zip_invalid_before_extraction (env : ZipEnv) (p : String)
    (sel : Option String)
    (h : strEndsWith p ".zip" = false) :
    zipIngest env p sel = (.invalidInput, .neverCreated) := by
  unfold zipIngest
  rw [if_neg (by simp [h])]

/-- C6 witness: `data.rar` is rejected with no filesystem effect. -/
theorem zip_non_zip_invalid_before_extraction_witness :
    zipIngest envSoloCSV "data.rar" none = (.invalidInput, .neverCreated) :=
  zip_non_zip_invalid_before_extraction envSoloCSV "data.rar" none (by decide)

/-- C7: the candidate filter is a case-sensitive exact match against the
`SUPPORTED_FORMATS` keys: an extracted name whose extension differs from
`.csv`/`.json`/`.parquet` only in letter case is never a supported
candidate. -/
theorem zip_filter_case_sensitive (entries : List String) (f : String)
    (_hcase : lowerStr (extOf f) ∈ [".csv", ".json", ".parquet"])
    (hne : extOf f ∉ [".csv", ".json", ".parquet"]) :
    f ∉ supportedOf entries := by
  intro hmem
  exact hne (lookup_supported_mem (mem_supportedOf_isSupported hmem))

/-- C7 witness: `A.CSV` (extension `.CSV`, lowercasing to `.csv`) is not a
supported candidate even when it is the only extracted name. -/
theorem zip_filter_case_sensitive_witness :
    "A.CSV" ∉ supportedOf ["A.CSV"] :=
  zip_filter_case_sensitive ["A.CSV"] "A.CSV" (by decide) (by decide)

/-- C8: once the selection resolves, the reader's result is returned
unchanged on success and a reader failure propagates as-is, and in both
cases the extraction workspace is left on disk with the extracted files. -/
theorem zip_result_passthrough_no_cleanup (env : ZipEnv) (p : String)
    (entries : List String) (sel : Option String) (resolved : String)
    (k : IngestorKind)
    (hz : strEndsWith p ".zip" = true)
    (he : env.entries = some entries)
    (hres : (∃ s, sel = some s ∧ s ∈ supportedOf entries ∧ resolved = s)
          ∨ (sel = none ∧ supportedOf entries = [resolved]))
    (hk : SUPPORTED_FORMATS.lookup (extOf resolved) = some k) :
    (∀ df, env.parse k ("extracted_data/" ++ resolved) = some df →
        zipIngest env p sel = (.ok df, .retained entries))
  ∧ (env.parse k ("extracted_data/" ++ resolved) = none →
        zipIngest env p sel = (.parseFailed, .retained entries)) := by
  have hmain := zipIngest_resolved env p entries sel resolved hz he hres
  constructor
  · intro df hdf
    rw [hmain]
    simp [applyFormat, hk, hdf]
  · intro hdf
    rw [hmain]
    simp [applyFormat, hk, hdf]

/-- C8 witness: the sole candidate `a.csv` reads successfully, the result is
returned unchanged, and the workspace stays on disk. -/
theorem zip_result_passthrough_no_cleanup_witness :
    zipIngest envSoloCSV "t.zip" none = (.ok 7, .retained ["a.csv"]) :=
  (zip_result_passthrough_no_cleanup envSoloCSV "t.zip" ["a.csv"] none
    "a.csv" .csv (by decide) rfl (Or.inr ⟨rfl, by decide⟩) (by decide)).1
    7 rfl

/-- C9: the factory's table and the archive loader's table stay in sync:
both associate exactly `.csv`, `.json`, `.parquet` to the same three format
loaders, the factory additionally maps `.zip` to the archive loader, `.zip`
is absent from the archive loader's table, and so an extracted `.zip` entry
is never a supported candidate (both tables are fixed `def`s — there is no
mutation to model). -/
theorem factory_and_zip_mappings_in_sync :
    SUPPORTED_FORMATS.map Prod.fst = [".csv", ".json", ".parquet"]
  ∧ INGESTORS.map Prod.fst = [".csv", ".json", ".parquet", ".zip"]
  ∧ INGESTORS.lookup ".csv" = SUPPORTED_FORMATS.lookup ".csv"
  ∧ INGESTORS.lookup ".json" = SUPPORTED_FORMATS.lookup ".json"
  ∧ INGESTORS.lookup ".parquet" = SUPPORTED_FORMATS.lookup ".parquet"
  ∧ INGESTORS.lookup ".zip" = some IngestorKind.zip
  ∧ SUPPORTED_FORMATS.lookup ".zip" = none
  ∧ supportedOf ["inner.zip", "a.csv"] = ["a.csv"] := by decide

/-- C10 counterexample: the archive member `data.csv/a.json` — the only
supported *file*, `a.json`, lies in a subdirectory — does not fail with
`FileNotFoundError`: `os.listdir` shows the top-level directory `data.csv`,
whose name matches the `.csv` key, so it becomes the sole candidate and the
CSV reader is invoked on the directory (failing as a read error, with the
workspace left on disk). -/
theorem zip_nested_only_dir_named_like_csv :
    zipIngest envDirNamedCsv "t.zip" none =
      (.parseFailed, .retained ["data.csv/a.json"])
  ∧ isNotFoundResult (zipIngest envDirNamedCsv "t.zip" none).1 = false
  ∧ supportedOf ["data.csv/a.json"] = ["data.csv"] := by decide

/-- C10 (amended): only the top-level names of the workspace are enumerated:
candidates never contain a path separator, so a `file_name` given as a
nested path is never matched; and when no top-level name has a supported
extension the call fails with the no-supported-format `FileNotFoundError`
and the workspace is removed, nested supported files notwithstanding. -/
theorem zip_top_level_enumeration_only (env : ZipEnv) (p : String)
    (entries : List String) (s : String)
    (hz : strEndsWith p ".zip" = true)
    (he : env.entries = some entries)
    (htop : ∀ t ∈ listdirModel entries, isSupportedName t = false)
    (hs : ('/' : Char) ∈ s.data) :
    zipIngest env p none = (.notFound none, .removed)
  ∧ s ∉ supportedOf entries := by
  have h0 : supportedOf entries = [] := by
    refine List.filter_eq_nil_iff.mpr ?_
    intro a ha
    simp [htop a ha]
  exact ⟨zipIngest_noSupported env p entries none hz he h0,
    fun hmem => mem_supportedOf_no_slash hmem hs⟩

/-- C10 witness: the archive member `sub/a.csv` yields the candidate-free
`FileNotFoundError`, and the nested name `sub/a.csv` itself is never a
candidate. -/
theorem zip_top_level_enumeration_only_witness :
    zipIngest envNested "t.zip" none = (.notFound none, .removed)
  ∧ "sub/a.csv" ∉ supportedOf ["sub/a.csv"] :=
  zip_top_level_enumeration_only envNested "t.zip" ["sub/a.csv"] "sub/a.csv"
    (by decide) rfl (by decide) (by decide)
